import Mathlib

/-!
Verification development for the rust-mongodb-example repository.

The program (src/src/main.rs) is a linear script against a MongoDB
collection "posts": it drops the collection, recreates it with a strict
JSON-schema validator, creates an index on tags, inserts three fixed
sample posts, runs find / updateMany / deleteMany with tag filters, and
runs one unwind-then-group aggregation pipeline.

The typed record shapes (Post, TagWithPosts), the validator schema
document, the sample data, the filters, the update and the pipeline are
embedded from the source.  The document store itself is an external
collaborator (the spec's "Document Collection Client" contract); its
operational semantics are modelled from the spec where indicated.
-/

namespace MongoExample

/-- ObjectId: the 12-byte BSON object identifier used as the id field of
Post (mongodb::bson::oid::ObjectId in the source). -/
structure ObjectId where
  bytes : List Nat
  size_eq : bytes.length = 12

instance : DecidableEq ObjectId := fun a b =>
  if h : a.bytes = b.bytes then
    .isTrue (by cases a; cases b; simp_all)
  else
    .isFalse (fun e => h (congrArg ObjectId.bytes e))

/-- Concrete object identifier used for witnesses: eleven zero bytes
followed by the byte k mod 256. -/
def oid (k : Nat) : ObjectId :=
  ⟨List.replicate 11 0 ++ [k % 256], by simp⟩

/-- Post: the typed record of the source (struct Post, main.rs lines
128-135): an id (serialized as _id), a title, a message and a list of
tags.  The id field is mandatory in the type, exactly as in the Rust
struct. -/
structure Post where
  id : ObjectId
  title : String
  message : String
  tags : List String
deriving DecidableEq

/-- TagWithPosts: the typed aggregation result of the source (struct
TagWithPosts, main.rs lines 137-142): one tag value (serialized as _id)
and the list of post identifiers accumulated for it. -/
structure TagWithPosts where
  tag : String
  post_ids : List ObjectId
deriving DecidableEq

/-- Error taxonomy of the spec that the embedded operations can raise.
Only ValidationError is reachable in this model; connection and decode
failures are transport-level and out of scope. -/
inductive DbError
  | validationError
deriving DecidableEq

/-- Schema validation predicate embedded from the validator document the
source passes to create_collection (main.rs lines 22-46): title is a
string of at most 300 characters, message a string of at most 4000
characters, tags an array of at most 5 items, each a string of 3 to 10
characters.  The required fields title, message, tags are always present
in the typed Post. -/
def postSchemaValid (p : Post) : Bool :=
  p.title.length ≤ 300 && p.message.length ≤ 4000 &&
    p.tags.length ≤ 5 && p.tags.all (fun t => 3 ≤ t.length && t.length ≤ 10)

/-- Collection: the persisted state of the "posts" collection, a finite
sequence of records owned by the store. -/
structure Collection where
  posts : List Post
deriving DecidableEq

def emptyCollection : Collection := ⟨[]⟩

/-- Database: whether the "posts" collection currently exists, and its
contents when it does. -/
structure Database where
  posts : Option Collection
deriving DecidableEq

/-- Modelled from the spec: dropCollection removes the named collection
and all its documents and indexes, and succeeds even if the collection
does not exist (idempotent delete).  The store engine is external to
src/, so this is the spec's contract for db.collection("posts").drop. -/
def dropCollection (_db : Database) : Database × Option DbError :=
  (⟨none⟩, none)

/-- Modelled from the spec: createCollection creates an empty collection
that enforces the schema on writes (validationLevel Strict,
validationAction Error, as built in main.rs lines 19-47). -/
def createCollection (_db : Database) : Database × Option DbError :=
  (⟨some emptyCollection⟩, none)

/-- Modelled from the spec: insertMany validates each record against the
collection schema (delegated to the store) and persists all records.
Per the spec's adopted default of best-effort continuation, the valid
records are persisted, and the batch reports ValidationError when any
record violates the schema; a violating record is never persisted. -/
def insertMany (c : Collection) (ps : List Post) : Collection × Option DbError :=
  (⟨c.posts ++ ps.filter postSchemaValid⟩,
    if ps.all postSchemaValid then none else some .validationError)

/-- Filter semantics of the source's tag filters (e.g. main.rs line 83):
a document with filter (tags : value) matches when the tags array
contains the value. -/
def matchesTag (tag : String) (p : Post) : Bool :=
  p.tags.contains tag

/-- Modelled from the spec: find returns the finite sequence of records
matching the filter.  This is the tag-equality filter used in main.rs
lines 83, 95 and 106. -/
def findByTag (c : Collection) (tag : String) : List Post :=
  c.posts.filter (matchesTag tag)

/-- Modelled from the spec: find with an identifier-equality filter,
used to state the round-trip property. -/
def findById (c : Collection) (i : ObjectId) : List Post :=
  c.posts.filter (fun p => p.id = i)

/-- Modelled from the spec: updateMany applies the mutation
(set (title : newTitle), main.rs lines 90-94) to every record matching
the tag filter.  With validationLevel Strict each updated document is
re-validated; if some updated document would violate the schema the
write is rejected with ValidationError and the state is unchanged. -/
def updateManySetTitle (c : Collection) (tag newTitle : String) :
    Collection × Option DbError :=
  if c.posts.all (fun p => !matchesTag tag p ||
      postSchemaValid { p with title := newTitle }) then
    (⟨c.posts.map (fun p =>
        if matchesTag tag p then { p with title := newTitle } else p)⟩, none)
  else
    (c, some .validationError)

/-- Modelled from the spec: deleteMany removes every record matching the
filter and returns the count deleted; a call with zero matches succeeds
with count 0 (main.rs lines 102-105 with the tag filter). -/
def deleteManyByTag (c : Collection) (tag : String) :
    Collection × Nat × Option DbError :=
  (⟨c.posts.filter (fun p => !matchesTag tag p)⟩,
    (c.posts.filter (matchesTag tag)).length, none)

/-- Stage one of the source's aggregation pipeline (main.rs line 114):
unwind on tags turns each post into one output document per tag entry,
keeping the post identifier.  A post with no tags produces nothing. -/
def unwindTags (ps : List Post) : List (String × ObjectId) :=
  ps.flatMap (fun p => p.tags.map (fun t => (t, p.id)))

/-- Stage two of the source's aggregation pipeline (main.rs lines
115-118): group by the unwound tag value, accumulating the set of post
identifiers with addToSet (duplicates removed). -/
def groupByTag (pairs : List (String × ObjectId)) : List TagWithPosts :=
  ((pairs.map Prod.fst).dedup).map (fun t =>
    ⟨t, ((pairs.filter (fun q => q.1 = t)).map Prod.snd).dedup⟩)

/-- Modelled from the spec: the aggregation pipeline of main.rs lines
113-119, unwind on tags then group by tag with addToSet of the id. -/
def aggregate (ps : List Post) : List TagWithPosts :=
  groupByTag (unwindTags ps)

/-- Normal form of an aggregation result for set-level comparison:
grouping produces each group's id collection as a set (addToSet) and the
groups themselves in unspecified order, so a result is read as the
finite set of (tag, id set) pairs. -/
def aggNorm (ps : List Post) : Finset (String × Finset ObjectId) :=
  ((aggregate ps).map (fun g => (g.tag, g.post_ids.toFinset))).toFinset

/-- Sample posts embedded from main.rs lines 60-79, parametric in the
three identifiers produced by the ObjectId::new() calls. -/
def samplePosts (id1 id2 id3 : ObjectId) : List Post :=
  [⟨id1, "Post 1", "This is post 1", ["tag1"]⟩,
   ⟨id2, "Post 2", "This is post 2", ["tag1", "tag2"]⟩,
   ⟨id3, "Hello", "World", ["tag1", "tag3"]⟩]

/-- Validity of a collection state: every persisted record satisfies the
schema bounds. -/
def Collection.valid (c : Collection) : Prop :=
  ∀ p ∈ c.posts, postSchemaValid p = true

/-- The database operations main issues, in source order (main.rs lines
8-126): drop, create collection, create index, insert, find by tag1,
update, find by tag2, delete, find by tag2 again, aggregate. -/
inductive DbOp
  | drop
  | createCol
  | createIndex
  | insert
  | findTag1
  | update
  | findTag2AfterUpdate
  | delete
  | findTag2AfterDelete
  | aggregate
deriving DecidableEq

/-- The fixed operation sequence of main, in source order. -/
def mainOps : List DbOp :=
  [.drop, .createCol, .createIndex, .insert, .findTag1, .update,
   .findTag2AfterUpdate, .delete, .findTag2AfterDelete, .aggregate]

/-- Control flow of main: every database call is immediately followed by
.expect, which panics on Err and aborts the program.  runSeq issues the
operations in order against an oracle saying which operations error; it
returns the operations actually issued and whether the program panicked.
On the first failing operation the program stops: that operation is the
last one issued. -/
def runSeq (fails : DbOp → Bool) : List DbOp → List DbOp × Bool
  | [] => ([], false)
  | op :: rest =>
    if fails op then ([op], true)
    else
      let r := runSeq fails rest
      (op :: r.1, r.2)

/-! Helper lemmas shared by the claim theorems. -/

theorem perm_toFinset {α : Type} [DecidableEq α] {l₁ l₂ : List α}
    (h : l₁.Perm l₂) : l₁.toFinset = l₂.toFinset := by
  ext a; simp [h.mem_iff]

theorem dedup_toFinset {α : Type} [DecidableEq α] (l : List α) :
    l.dedup.toFinset = l.toFinset := by
  ext a; simp

/-- Normal form of the aggregation result: the grouping stage, read up
to set equality of each group's accumulated identifiers. -/
theorem aggNorm_eq (ps : List Post) :
    aggNorm ps =
      (((unwindTags ps).map Prod.fst).dedup.map (fun t =>
        (t, (((unwindTags ps).filter (fun q => q.1 = t)).map Prod.snd).toFinset))).toFinset := by
  unfold aggNorm aggregate groupByTag
  rw [List.map_map]
  congr 1
  apply List.map_congr_left
  intro t _
  simp [dedup_toFinset]

/-- The set-level aggregation result does not depend on the order of the
input records. -/
theorem aggNorm_perm {ps₁ ps₂ : List Post} (h : ps₁.Perm ps₂) :
    aggNorm ps₁ = aggNorm ps₂ := by
  have hu : (unwindTags ps₁).Perm (unwindTags ps₂) := by
    unfold unwindTags
    exact h.flatMap_right _
  have hids : ∀ t : String,
      (((unwindTags ps₁).filter (fun q => q.1 = t)).map Prod.snd).toFinset
        = (((unwindTags ps₂).filter (fun q => q.1 = t)).map Prod.snd).toFinset :=
    fun t => perm_toFinset ((hu.filter _).map _)
  rw [aggNorm_eq, aggNorm_eq]
  have hf : (fun t => (t, (((unwindTags ps₁).filter (fun q => q.1 = t)).map Prod.snd).toFinset))
      = (fun t => (t, (((unwindTags ps₂).filter (fun q => q.1 = t)).map Prod.snd).toFinset)) :=
    funext fun t => by rw [hids t]
  rw [hf]
  exact perm_toFinset (((hu.map Prod.fst).dedup).map _)

/-- Identifier set contributed by one record's tag list to the group for
tag t: its id when the record carries t, nothing otherwise. -/
theorem tag_head_ids (t : String) (i : ObjectId) (tags : List String) :
    (((tags.map (fun s => (s, i))).filter (fun q => q.1 = t)).map Prod.snd).toFinset
      = if t ∈ tags then ({i} : Finset ObjectId) else ∅ := by
  induction tags with
  | nil => simp
  | cons s tags ih =>
    by_cases h : s = t
    · subst h
      simp [List.filter_cons, ih]
      split <;> simp
    · simp [List.filter_cons, h, ih, Ne.symm h]

/-- The identifier set of the group for tag t is exactly the set of
identifiers of the records whose tags contain t. -/
theorem tagIds_toFinset (t : String) (ps : List Post) :
    (((unwindTags ps).filter (fun q => q.1 = t)).map Prod.snd).toFinset
      = ((ps.filter (matchesTag t)).map Post.id).toFinset := by
  induction ps with
  | nil => rfl
  | cons p ps ih =>
    have hhead := tag_head_ids t p.id p.tags
    simp only [unwindTags, List.flatMap_cons, List.filter_append, List.map_append,
      List.toFinset_append] at *
    rw [hhead, ih, List.filter_cons]
    by_cases hm : t ∈ p.tags
    · rw [if_pos hm]
      have hb : matchesTag t p = true := by simp [matchesTag, hm]
      rw [hb]
      simp [Finset.insert_eq]
    · rw [if_neg hm]
      have hb : matchesTag t p = false := by simp [matchesTag, hm]
      rw [hb]
      simp

/-- Closed form of runSeq: the issued operations are the failure-free
prefix followed by the first failing operation when there is one, and
the run panics exactly when some operation fails. -/
theorem runSeq_eq (fails : DbOp → Bool) (l : List DbOp) :
    runSeq fails l =
      (l.takeWhile (fun o => !fails o) ++ (l.dropWhile (fun o => !fails o)).take 1,
        l.any fails) := by
  induction l with
  | nil => simp [runSeq]
  | cons op rest ih =>
    by_cases h : fails op = true
    · simp [runSeq, h, List.takeWhile, List.dropWhile]
    · simp only [Bool.not_eq_true] at h
      simp [runSeq, h, ih, List.takeWhile, List.dropWhile]

/-! Claim theorems. -/

/-- C1: every persisted Record satisfies the schema bounds.  Inserting a
record with 6 tags or a title longer than 300 characters into the
collection created with the strict/error validator fails with
ValidationError and leaves the state unchanged (the record is not
persisted), and schema validity of all persisted records is an
invariant preserved by insertMany, updateMany and deleteMany. -/
theorem schema_bounds_enforced_and_invariant (c : Collection) (p : Post)
    (hbad : p.tags.length = 6 ∨ 300 < p.title.length) :
    (insertMany c [p]).2 = some DbError.validationError ∧
    (insertMany c [p]).1 = c ∧
    (c.valid →
      (∀ ps, (insertMany c ps).1.valid) ∧
      (∀ tag newTitle, (updateManySetTitle c tag newTitle).1.valid) ∧
      (∀ tag, (deleteManyByTag c tag).1.valid)) := by
  have hpv : postSchemaValid p = false := by
    rcases hbad with h | h
    · have h5 : ¬ (p.tags.length ≤ 5) := by omega
      simp [postSchemaValid, h5]
    · have h3 : ¬ (p.title.length ≤ 300) := by omega
      simp [postSchemaValid, h3]
  refine ⟨?_, ?_, fun hv => ⟨?_, ?_, ?_⟩⟩
  · simp [insertMany, hpv]
  · simp [insertMany, hpv]
  · intro ps q hq
    simp only [insertMany, List.mem_append, List.mem_filter] at hq
    rcases hq with h | h
    · exact hv q h
    · exact h.2
  · intro tag newTitle q hq
    unfold updateManySetTitle at hq
    split at hq
    · next hall =>
      simp only [List.mem_map] at hq
      rcases hq with ⟨q', hq', rfl⟩
      by_cases hm : matchesTag tag q' = true
      · rw [if_pos hm]
        have := (List.all_eq_true.mp hall) q' hq'
        rw [hm] at this
        simpa using this
      · rw [if_neg hm]
        exact hv q' hq'
    · exact hv q hq
  · intro tag q hq
    exact hv q (List.mem_filter.mp hq).1

/-- C1 witness: a concrete record with six tags is rejected with
ValidationError and not persisted. -/
theorem schema_bounds_enforced_and_invariant_witness :
    (insertMany emptyCollection
      [⟨oid 9, "Post 9", "Message 9",
        ["tag1", "tag2", "tag3", "tag4", "tag5", "tag6"]⟩]).2
      = some DbError.validationError ∧
    (insertMany emptyCollection
      [⟨oid 9, "Post 9", "Message 9",
        ["tag1", "tag2", "tag3", "tag4", "tag5", "tag6"]⟩]).1
      = emptyCollection := by
  have h := schema_bounds_enforced_and_invariant emptyCollection
    ⟨oid 9, "Post 9", "Message 9",
      ["tag1", "tag2", "tag3", "tag4", "tag5", "tag6"]⟩ (Or.inl rfl)
  exact ⟨h.1, h.2.1⟩

/-- C2: round-trip.  Inserting a schema-valid record whose identifier is
not already present and then finding it by that identifier returns
exactly the inserted record, equal in all fields. -/
theorem insert_find_roundtrip (c : Collection) (p : Post)
    (hv : postSchemaValid p = true)
    (hfresh : ∀ q ∈ c.posts, q.id ≠ p.id) :
    findById (insertMany c [p]).1 p.id = [p] := by
  have hfil : [p].filter postSchemaValid = [p] := by simp [hv]
  have h1 : c.posts.filter (fun q => q.id = p.id) = [] := by
    rw [List.filter_eq_nil_iff]
    intro q hq
    simpa using hfresh q hq
  simp only [findById, insertMany]
  rw [hfil, List.filter_append, h1]
  simp

/-- C2 witness: the round-trip at a concrete record and the empty
collection. -/
theorem insert_find_roundtrip_witness :
    findById (insertMany emptyCollection
        [⟨oid 1, "Post 1", "This is post 1", ["tag1"]⟩]).1 (oid 1)
      = [⟨oid 1, "Post 1", "This is post 1", ["tag1"]⟩] :=
  insert_find_roundtrip emptyCollection
    ⟨oid 1, "Post 1", "This is post 1", ["tag1"]⟩
    (by decide) (by simp [emptyCollection])

/-- C3: aggregating the three sample records by tag-unwind-then-group
produces exactly the groups tag1 to the set of all three identifiers,
tag2 to the identifier of the second record, tag3 to the identifier of
the third, for every insertion order of the records; and each group's
identifier set is exactly the set of identifiers of the source records
containing that tag. -/
theorem aggregation_groups_by_tag (id1 id2 id3 : ObjectId) (l : List Post)
    (hl : l.Perm (samplePosts id1 id2 id3)) :
    aggNorm l =
      {("tag1", ({id1, id2, id3} : Finset ObjectId)),
       ("tag2", ({id2} : Finset ObjectId)),
       ("tag3", ({id3} : Finset ObjectId))} ∧
    ∀ g ∈ aggregate l, g.post_ids.toFinset =
      ((l.filter (matchesTag g.tag)).map Post.id).toFinset := by
  constructor
  · rw [aggNorm_perm hl]
    simp only [aggNorm, aggregate, groupByTag, unwindTags, samplePosts]
    simp [dedup_toFinset]
    ext x
    simp
    tauto
  · intro g hg
    simp only [aggregate, groupByTag, List.mem_map] at hg
    rcases hg with ⟨t, _, rfl⟩
    rw [dedup_toFinset]
    exact tagIds_toFinset t l

/-- C3 witness: the aggregation result at concrete identifiers, obtained
from the theorem at the identity insertion order. -/
theorem aggregation_groups_by_tag_witness :
    aggNorm (samplePosts (oid 1) (oid 2) (oid 3)) =
      {("tag1", ({oid 1, oid 2, oid 3} : Finset ObjectId)),
       ("tag2", ({oid 2} : Finset ObjectId)),
       ("tag3", ({oid 3} : Finset ObjectId))} :=
  (aggregation_groups_by_tag (oid 1) (oid 2) (oid 3)
    (samplePosts (oid 1) (oid 2) (oid 3)) (List.Perm.refl _)).1

/-- C4: after inserting the three sample records into the empty
collection, find with filter tags = tag1 returns exactly the three
records and find with filter tags = tag2 returns exactly the one record
containing tag2. -/
theorem find_filter_correct (id1 id2 id3 : ObjectId) :
    findByTag (insertMany emptyCollection (samplePosts id1 id2 id3)).1 "tag1"
      = samplePosts id1 id2 id3 ∧
    findByTag (insertMany emptyCollection (samplePosts id1 id2 id3)).1 "tag2"
      = [⟨id2, "Post 2", "This is post 2", ["tag1", "tag2"]⟩] :=
  ⟨rfl, rfl⟩

/-- C5: updateMany with filter tags = tag2 setting the title modifies
exactly the one record containing tag2 and leaves every other record,
and every other field, unchanged; after deleteMany with the same filter,
find by tag2 returns the empty sequence. -/
theorem update_frame_and_delete (id1 id2 id3 : ObjectId) :
    (updateManySetTitle (insertMany emptyCollection (samplePosts id1 id2 id3)).1
        "tag2" "Updated title").1.posts
      = [⟨id1, "Post 1", "This is post 1", ["tag1"]⟩,
         ⟨id2, "Updated title", "This is post 2", ["tag1", "tag2"]⟩,
         ⟨id3, "Hello", "World", ["tag1", "tag3"]⟩] ∧
    findByTag (deleteManyByTag
        (updateManySetTitle (insertMany emptyCollection (samplePosts id1 id2 id3)).1
          "tag2" "Updated title").1 "tag2").1 "tag2"
      = [] :=
  ⟨rfl, rfl⟩

/-- C6 counterexample: persisted identifiers are not generated by the
store.  The store persists exactly the caller-supplied identifier (here
oid 1), and supplying a different identifier yields a different
persisted identifier, so the persisted identifier depends on the
client-side ObjectId::new() value, refuting store-side generation. -/
theorem store_generated_id_counterexample :
    ((insertMany emptyCollection
        [⟨oid 1, "Post 1", "This is post 1", ["tag1"]⟩]).1.posts.map Post.id
      = [oid 1]) ∧
    ((insertMany emptyCollection
        [⟨oid 1, "Post 1", "This is post 1", ["tag1"]⟩]).1.posts.map Post.id
      ≠ (insertMany emptyCollection
        [⟨oid 2, "Post 1", "This is post 1", ["tag1"]⟩]).1.posts.map Post.id) := by
  refine ⟨rfl, ?_⟩
  decide

/-- C6 amended: every Record's id is a 12-byte identifier assigned by
the client before insert (the Post type requires it, as in the Rust
struct); insertMany persists each record with its given identifier
unchanged, and identifiers are immutable afterwards: updateMany never
changes any persisted identifier and deleteMany introduces none. -/
theorem id_assignment_immutable (c : Collection) (ps : List Post)
    (tag newTitle : String) (hv : ps.all postSchemaValid = true) :
    ((insertMany c ps).1.posts.map Post.id
      = c.posts.map Post.id ++ ps.map Post.id) ∧
    ((updateManySetTitle c tag newTitle).1.posts.map Post.id
      = c.posts.map Post.id) ∧
    (∀ i ∈ (deleteManyByTag c tag).1.posts.map Post.id,
      i ∈ c.posts.map Post.id) ∧
    (∀ q ∈ (insertMany c ps).1.posts, q.id.bytes.length = 12) := by
  refine ⟨?_, ?_, ?_, ?_⟩
  · have : ps.filter postSchemaValid = ps :=
      List.filter_eq_self.mpr (List.all_eq_true.mp hv)
    simp [insertMany, this]
  · unfold updateManySetTitle
    split
    · rw [List.map_map]
      apply List.map_congr_left
      intro p _
      by_cases h : matchesTag tag p = true
      · simp [h]
      · simp [h]
    · rfl
  · intro i hi
    simp only [deleteManyByTag, List.mem_map, List.mem_filter] at hi
    rcases hi with ⟨q, ⟨hq, _⟩, rfl⟩
    exact List.mem_map_of_mem Post.id hq
  · intro q _
    exact q.id.size_eq

/-- C6 amended witness: the identifiers persisted for the three sample
posts are exactly the caller-supplied ones. -/
theorem id_assignment_immutable_witness :
    (insertMany emptyCollection (samplePosts (oid 1) (oid 2) (oid 3))).1.posts.map Post.id
      = ([] : List Post).map Post.id ++ (samplePosts (oid 1) (oid 2) (oid 3)).map Post.id :=
  (id_assignment_immutable emptyCollection (samplePosts (oid 1) (oid 2) (oid 3))
    "tag2" "Updated title" (by decide)).1

/-- C7: dropCollection is idempotent.  For every starting state a call
succeeds without error and leaves the collection absent, and so does a
second consecutive call. -/
theorem dropCollection_idempotent (db : Database) :
    (dropCollection db).2 = none ∧
    (dropCollection db).1.posts = none ∧
    (dropCollection (dropCollection db).1).2 = none ∧
    (dropCollection (dropCollection db).1).1.posts = none ∧
    dropCollection (dropCollection db).1 = dropCollection db :=
  ⟨rfl, rfl, rfl, rfl, rfl⟩

/-- C8: deleteMany removes exactly the records matching the filter,
returns the count of records deleted, and never errors; with a filter
matching zero records it succeeds with count 0 and leaves the state
unchanged. -/
theorem deleteMany_count (c : Collection) (tag : String) :
    (deleteManyByTag c tag).2.2 = none ∧
    (deleteManyByTag c tag).2.1 = c.posts.countP (matchesTag tag) ∧
    (∀ p, p ∈ (deleteManyByTag c tag).1.posts ↔
      p ∈ c.posts ∧ ¬ matchesTag tag p = true) ∧
    ((∀ p ∈ c.posts, ¬ matchesTag tag p = true) →
      (deleteManyByTag c tag).2.1 = 0 ∧ (deleteManyByTag c tag).1 = c) := by
  refine ⟨rfl, ?_, ?_, ?_⟩
  · simp [deleteManyByTag, List.countP_eq_length_filter]
  · intro p
    simp [deleteManyByTag]
  · intro hz
    have hnil : c.posts.filter (matchesTag tag) = [] := by
      rw [List.filter_eq_nil_iff]
      exact hz
    have hself : c.posts.filter (fun p => !matchesTag tag p) = c.posts := by
      rw [List.filter_eq_self]
      intro p hp
      simp [hz p hp]
    refine ⟨?_, ?_⟩
    · simp [deleteManyByTag, hnil]
    · simp [deleteManyByTag, hself]

/-- C8 witness: deleteMany on the empty collection with the tag2 filter
succeeds without error, reports count 0 and leaves the state
unchanged. -/
theorem deleteMany_count_witness :
    (deleteManyByTag emptyCollection "tag2").2.2 = none ∧
    (deleteManyByTag emptyCollection "tag2").2.1 = 0 ∧
    (deleteManyByTag emptyCollection "tag2").1 = emptyCollection := by
  have h := deleteMany_count emptyCollection "tag2"
  have hz : ∀ p ∈ emptyCollection.posts, ¬ matchesTag "tag2" p = true := by
    simp [emptyCollection]
  exact ⟨h.1, (h.2.2.2 hz).1, (h.2.2.2 hz).2⟩

/-- C9: fail-fast sequencing.  The script issues its fixed operation
sequence in order; it panics exactly when some operation fails, and the
operations issued are the failure-free prefix followed by the first
failing operation when there is one, so no operation after the first
failure is issued and no error is suppressed or retried. -/
theorem fail_fast_sequencing (fails : DbOp → Bool) :
    (runSeq fails mainOps).2 = mainOps.any fails ∧
    (runSeq fails mainOps).1 =
      mainOps.takeWhile (fun o => !fails o) ++
        (mainOps.dropWhile (fun o => !fails o)).take 1 := by
  rw [runSeq_eq]
  exact ⟨rfl, rfl⟩

/-- C10: each of the three hard-coded sample posts satisfies the
collection's schema validator, so inserting them reports no validation
error and persists all three. -/
theorem sample_posts_satisfy_schema (id1 id2 id3 : ObjectId) :
    (samplePosts id1 id2 id3).all postSchemaValid = true ∧
    (insertMany emptyCollection (samplePosts id1 id2 id3)).2 = none ∧
    (insertMany emptyCollection (samplePosts id1 id2 id3)).1.posts
      = samplePosts id1 id2 id3 :=
  ⟨rfl, rfl, rfl⟩

end MongoExample
